import Mathlib

/-!
Verification development for the Job Application Email Sender backend
(`app.py`, production variant).  The definitions below are a shallow
embedding of the Python source: the email validator (`EmailValidator.validate_email`
together with the module-level `EMAIL_REGEX`), the message builder
(`EmailSender.create_message`), the streaming dispatch generator
(`EmailSender.send_emails_batch`) and the credential probe (`test_email`).
External effects (SMTP connection, STARTTLS, login, per-recipient message
building and submission, teardown) are modelled by an environment record
that fixes the outcome of each call; the generator is a pure function from
that environment to the list of actions it performs (yielded events,
sleeps, and the `server.quit()` attempt).
-/

namespace JobMailer

/-! ### Email validator (`EmailValidator.validate_email` and `EMAIL_REGEX`)

`EMAIL_REGEX = ^[a-zA-Z0-9._%+-]+@[a-zA-Z0-9.-]+\.[a-zA-Z]{2,}$`.
Since `@` occurs in no character class of the pattern, a matching string
splits uniquely at its sole `@`; since the final `[a-zA-Z]{2,}` block
contains no dot, the domain splits uniquely at its last dot.  The
executable matcher below performs exactly these forced splits; the head
character produced by `dropWhile` necessarily equals the delimiter, which
the matcher re-checks explicitly. -/

/-- The local-part character class `[a-zA-Z0-9._%+-]`. -/
def localChar (c : Char) : Bool :=
  c.isAlpha || c.isDigit || c == '.' || c == '_' || c == '%' || c == '+' || c == '-'

/-- The domain character class `[a-zA-Z0-9.-]`. -/
def domainChar (c : Char) : Bool :=
  c.isAlpha || c.isDigit || c == '.' || c == '-'

/-- Whitespace stripped by Python's `str.strip()` (ASCII range). -/
def isSpaceChar (c : Char) : Bool :=
  c == ' ' || c == '\t' || c == '\n' || c == '\r' || c == Char.ofNat 11 || c == Char.ofNat 12

/-- Python `str.strip()`: drop leading and trailing whitespace. -/
def pyStrip (s : List Char) : List Char :=
  ((s.dropWhile isSpaceChar).reverse.dropWhile isSpaceChar).reverse

/-- Matcher for the domain part `[a-zA-Z0-9.-]+\.[a-zA-Z]{2,}` of `EMAIL_REGEX`:
split at the last dot (the trailing alphabetic block contains no dot). -/
def domainMatch (r : List Char) : Bool :=
  match r.reverse.dropWhile (fun c => c != '.') with
  | [] => false
  | c :: dRev =>
      c == '.' && !dRev.isEmpty && dRev.all domainChar
        && decide (2 ≤ (r.reverse.takeWhile (fun c => c != '.')).length)
        && (r.reverse.takeWhile (fun c => c != '.')).all Char.isAlpha

/-- Matcher for `EMAIL_REGEX`: split at the first `@`. -/
def matchesEmailRegex (s : List Char) : Bool :=
  match s.dropWhile (fun c => c != '@') with
  | [] => false
  | c :: r =>
      c == '@' && !(s.takeWhile (fun c => c != '@')).isEmpty
        && (s.takeWhile (fun c => c != '@')).all localChar
        && domainMatch r

/-- `EmailValidator.validate_email`: reject falsy (empty) input and input
longer than 254 characters, otherwise match `EMAIL_REGEX` against the
stripped string. -/
def validate_email (email : List Char) : Bool :=
  if email.isEmpty ∨ 254 < email.length then false
  else matchesEmailRegex (pyStrip email)

/-! Claim-side shape predicate, written from the specification's words:
`local-part@domain` where the local part is one-or-more characters of
`[A-Za-z0-9._%+-]` and the domain is one-or-more characters of
`[A-Za-z0-9.-]` terminated by a final label of at least two alphabetic
characters. -/

/-- The address shape stated by the specification for the validator. -/
def emailShape (s : List Char) : Prop :=
  ∃ l d a : List Char,
    s = l ++ '@' :: (d ++ '.' :: a) ∧
    l ≠ [] ∧ (∀ c ∈ l, localChar c = true) ∧
    d ≠ [] ∧ (∀ c ∈ d, domainChar c = true) ∧
    2 ≤ a.length ∧ (∀ c ∈ a, c.isAlpha = true)

theorem localChar_ne_at {c : Char} (h : localChar c = true) : c ≠ '@' := by
  intro he; subst he; exact absurd h (by decide)

theorem alpha_ne_dot {c : Char} (h : c.isAlpha = true) : c ≠ '.' := by
  intro he; subst he; exact absurd h (by decide)

theorem takeWhile_append_of_all {α : Type} (p : α → Bool) (l : List α) (y : α) (r : List α)
    (hl : ∀ c ∈ l, p c = true) (hy : p y = false) :
    (l ++ y :: r).takeWhile p = l ∧ (l ++ y :: r).dropWhile p = y :: r := by
  induction l with
  | nil => simp [List.takeWhile_cons, List.dropWhile_cons, hy]
  | cons x xs ih =>
    have hx : p x = true := hl x (by simp)
    have ih' := ih (fun c hc => hl c (by simp [hc]))
    simp [List.takeWhile_cons, List.dropWhile_cons, hx, ih'.1, ih'.2]

theorem dropWhile_head_false {α : Type} (p : α → Bool) :
    ∀ (s : List α) (c : α) (r : List α), s.dropWhile p = c :: r → p c = false := by
  intro s
  induction s with
  | nil => intro c r h; simp [List.dropWhile] at h
  | cons x xs ih =>
    intro c r h
    by_cases hx : p x = true
    · rw [List.dropWhile_cons_of_pos hx] at h
      exact ih c r h
    · have hx' : p x = false := by revert hx; cases p x <;> simp
      rw [List.dropWhile_cons_of_neg (by simp [hx'])] at h
      cases h; exact hx'

theorem ne_nil_isEmpty_false {α : Type} {l : List α} (h : l ≠ []) : l.isEmpty = false := by
  cases l with
  | nil => exact absurd rfl h
  | cons x xs => rfl

/-- The executable matcher agrees with the specification's shape. -/
theorem matchesEmailRegex_iff_emailShape (s : List Char) :
    matchesEmailRegex s = true ↔ emailShape s := by
  constructor
  · intro h
    rw [matchesEmailRegex] at h
    split at h
    · simp at h
    · rename_i c r heq
      have hc : c = '@' := by
        have := dropWhile_head_false (fun c => c != '@') s c r heq
        simpa using this
      subst hc
      simp only [Bool.and_eq_true, beq_self_eq_true, true_and, Bool.not_eq_true'] at h
      obtain ⟨⟨hne, hall⟩, hdom⟩ := h
      have hsplit : s = s.takeWhile (fun c => c != '@') ++ '@' :: r := by
        conv_lhs => rw [← List.takeWhile_append_dropWhile (p := fun c => c != '@') (l := s)]
        rw [heq]
      rw [domainMatch] at hdom
      split at hdom
      · simp at hdom
      · rename_i c2 dRev heq2
        have hc2 : c2 = '.' := by
          have := dropWhile_head_false (fun c => c != '.') r.reverse c2 dRev heq2
          simpa using this
        subst hc2
        simp only [Bool.and_eq_true, beq_self_eq_true, true_and, Bool.not_eq_true',
          decide_eq_true_eq] at hdom
        obtain ⟨⟨⟨hdne, hdall⟩, halen⟩, haall⟩ := hdom
        have hrsplit : r.reverse = r.reverse.takeWhile (fun c => c != '.') ++ '.' :: dRev := by
          conv_lhs => rw [← List.takeWhile_append_dropWhile (p := fun c => c != '.') (l := r.reverse)]
          rw [heq2]
        have hr : r = dRev.reverse ++ '.' :: (r.reverse.takeWhile (fun c => c != '.')).reverse := by
          have h1 := congrArg List.reverse hrsplit
          simpa [List.reverse_append] using h1
        refine ⟨s.takeWhile (fun c => c != '@'), dRev.reverse,
          (r.reverse.takeWhile (fun c => c != '.')).reverse, ?_, ?_, ?_, ?_, ?_, ?_, ?_⟩
        · rw [← hr]; exact hsplit
        · simpa [List.isEmpty_iff] using hne
        · exact fun c hc => (List.all_eq_true.1 hall) c hc
        · simp only [ne_eq, List.reverse_eq_nil_iff]
          simpa [List.isEmpty_iff] using hdne
        · intro c hc
          exact (List.all_eq_true.1 hdall) c (List.mem_reverse.1 hc)
        · simpa using halen
        · intro c hc
          exact (List.all_eq_true.1 haall) c (List.mem_reverse.1 hc)
  · rintro ⟨l, d, a, rfl, hlne, hlall, hdne, hdall, halen, haall⟩
    have hsplit := takeWhile_append_of_all (fun c => c != '@') l '@' (d ++ '.' :: a)
      (fun c hc => by simpa using localChar_ne_at (hlall c hc)) (by decide)
    have hdsplit := takeWhile_append_of_all (fun c => c != '.') a.reverse '.' d.reverse
      (fun c hc => by simpa using alpha_ne_dot (haall c (List.mem_reverse.1 hc))) (by decide)
    have hrev : (d ++ '.' :: a).reverse = a.reverse ++ '.' :: d.reverse := by
      simp [List.reverse_append]
    rw [matchesEmailRegex]
    split
    · rename_i heq
      rw [hsplit.2] at heq
      simp at heq
    · rename_i c r heq
      rw [hsplit.2] at heq
      obtain ⟨rfl, rfl⟩ : '@' = c ∧ d ++ '.' :: a = r := by
        constructor <;> [exact (List.cons.injEq _ _ _ _ ▸ heq).1; exact (List.cons.injEq _ _ _ _ ▸ heq).2]
      rw [hsplit.1, domainMatch]
      split
      · rename_i heq2
        rw [hrev, hdsplit.2] at heq2
        simp at heq2
      · rename_i c2 dRev heq2
        rw [hrev, hdsplit.2] at heq2
        obtain ⟨rfl, rfl⟩ : '.' = c2 ∧ d.reverse = dRev := by
          constructor <;> [exact (List.cons.injEq _ _ _ _ ▸ heq2).1; exact (List.cons.injEq _ _ _ _ ▸ heq2).2]
        rw [hrev, hdsplit.1]
        have h1 : l.isEmpty = false := ne_nil_isEmpty_false hlne
        have h2 : l.all localChar = true := List.all_eq_true.2 hlall
        have h3 : d.reverse.isEmpty = false := ne_nil_isEmpty_false (by simpa using hdne)
        have h4 : d.reverse.all domainChar = true :=
          List.all_eq_true.2 (fun c hc => hdall c (List.mem_reverse.1 hc))
        have h5 : 2 ≤ a.reverse.length := by simpa using halen
        have h6 : a.reverse.all Char.isAlpha = true :=
          List.all_eq_true.2 (fun c hc => haall c (List.mem_reverse.1 hc))
        simp [h1, h2, h3, h4, h5, h6, halen]

/-! ### Configuration constants (`Config`) -/

def MAX_EMAIL_BODY_LENGTH : Nat := 5000
def MAX_SUBJECT_LENGTH : Nat := 200
def EMAIL_DELAY : Nat := 1
def SMTP_TIMEOUT : Nat := 30

/-! ### Exact binary64 semantics of `int((i / total) * 100)`

Python evaluates `i / total` as true division into an IEEE binary64
float, multiplies by `100.0` (exact), rounding each step to nearest-even,
and `int(...)` truncates toward zero.  For the positive values reachable
here (`1 ≤ i ≤ total ≤ len(recipients)`), a positive rational `num/den`
rounds to the binary64 value `m / 2^s` where `s` is the smallest shift
placing `num·2^s/den` in `[2^52, 2^53)` and `m` is the round-to-nearest,
ties-to-even integer of `num·2^s/den`. -/

/-- Smallest shift `s` with `2^52 · den ≤ num · 2^s` (binal exponent of `num/den`). -/
def rnShift (num den : Nat) : Nat :=
  (((List.range 64).find? fun s => 2 ^ 52 * den ≤ num * 2 ^ s).getD 0)

/-- Round the positive rational `num/den` to binary64, returned as `(m, s)`
with value `m / 2^s` (round to nearest, ties to even). -/
def rnFrac (num den : Nat) : Nat × Nat :=
  if num = 0 ∨ den = 0 then (0, 0)
  else
    let s := rnShift num den
    let q := num * 2 ^ s / den
    let r := num * 2 ^ s % den
    if 2 * r < den then (q, s)
    else if den < 2 * r then (q + 1, s)
    else if q % 2 = 0 then (q, s) else (q + 1, s)

/-- `int((i / total) * 100)` under binary64 float semantics. -/
def pyPercent (i total : Nat) : Nat :=
  let d := rnFrac i total
  let p := rnFrac (100 * d.1) (2 ^ d.2)
  p.1 / 2 ^ p.2

/-! ### Events and actions of the dispatch generator

`Ev` mirrors the NDJSON records yielded by `send_emails_batch`
(`{'type': 'log'|'progress'|'complete', ...}`); `Act` additionally records
the generator's `time.sleep` calls and its `server.quit()` attempt in the
`finally` block, so that pacing and teardown are observable. -/

inductive Ev : Type where
  | log (message : String) (level : String)
  | progress (progress : Nat) (total : Nat) (sent : Nat) (failed : Nat) (pending : Int)
  | complete (sent : Nat) (failed : Nat)
  deriving DecidableEq, Repr

inductive Act : Type where
  | emit (e : Ev)
  | sleep (seconds : Nat)
  | quit (teardownError : Option String)
  deriving DecidableEq, Repr

/-- Outcome of `server.login`: success, `SMTPAuthenticationError`, or any
other exception (caught by the outer `except Exception`). -/
inductive LoginRes : Type where
  | ok
  | authErr (msg : String)
  | otherExc (msg : String)
  deriving DecidableEq, Repr

/-- Environment fixing the outcome of every external call one run makes.
`buildErr i` / `sendErr i` give the exception message, if any, raised by
`create_message` / `server.sendmail` for the 1-indexed recipient `i`. -/
structure Env : Type where
  connectErr : Option String
  starttlsErr : Option String
  loginRes : LoginRes
  buildErr : Nat → Option String
  sendErr : Nat → Option String
  quitErr : Option String

/-! ### Log lines of `send_emails_batch` (verbatim from the source) -/

def startLog : Ev := Ev.log "Starting email campaign..." "info"
def connectingLog : Ev := Ev.log "Connecting to smtp.gmail.com..." "info"
def authingLog : Ev := Ev.log "Authenticating..." "info"
def authOkLog : Ev := Ev.log "Authentication successful" "success"
def sendingLog (total : Nat) : Ev :=
  Ev.log ("Sending to " ++ toString total ++ " recipients...") "info"
def invalidLog (r : String) : Ev := Ev.log ("Invalid email: " ++ r) "error"
def sentLog (r : String) : Ev := Ev.log ("✓ Sent to: " ++ r) "success"
def failSendLog (r e : String) : Ev :=
  Ev.log ("✗ Failed to send to " ++ r ++ ": " ++ e) "error"
def completionLog (sent failed : Nat) : Ev :=
  Ev.log ("Campaign completed! Sent: " ++ toString sent ++ ", Failed: " ++ toString failed) "success"
def outerErrLog (e : String) : Ev := Ev.log ("Error: " ++ e) "error"

/-- Substring of the relay's message that triggers the app-password hint. -/
def credSignature : List Char := "Username and Password not accepted".toList

/-- Python's `in` on strings: `needle` occurs contiguously in `hay`. -/
def containsSub (needle hay : List Char) : Bool :=
  (List.range (hay.length + 1)).any fun k => needle == (hay.drop k).take needle.length

/-- The single error log yielded on `SMTPAuthenticationError`: the
app-password hint when the signature matches, plain text otherwise. -/
def authFailLog (m : String) : Ev :=
  if containsSub credSignature m.toList then
    Ev.log ("Authentication failed! For Gmail, use an App Password, not your regular password. "
      ++ "Generate one at: https://myaccount.google.com/apppasswords") "error"
  else
    Ev.log ("Authentication failed: " ++ m) "error"

/-! ### Message builder (`EmailSender.create_message`) -/

structure MimeMessage : Type where
  fromHeader : List Char
  toHeader : List Char
  subject : List Char
  bodyText : List Char
  bodySubtype : List Char
  hasAttachment : Bool
  deriving DecidableEq, Repr

/-- `EmailSender.create_message`: headers, truncated subject, truncated
plain-text body, optional attachment (filename handling not modelled). -/
def create_message (sender_email sender_name recipient_email subject body : List Char)
    (cv_data : List Nat) (cv_filename : List Char) : MimeMessage :=
  { fromHeader :=
      if sender_name ≠ [] ∧ pyStrip sender_name ≠ [] then
        '"' :: pyStrip sender_name ++ '"' :: ' ' :: '<' :: sender_email ++ ['>']
      else sender_email
    toHeader := recipient_email
    subject := subject.take MAX_SUBJECT_LENGTH
    bodyText := body.take MAX_EMAIL_BODY_LENGTH
    bodySubtype := "plain".toList
    hasAttachment := !cv_data.isEmpty && !cv_filename.isEmpty }

/-! ### The per-recipient loop of `send_emails_batch` -/

/-- What happened for one recipient: failed validation, exception while
building, exception while submitting, or accepted by the relay. -/
inductive Outcome : Type where
  | invalid
  | buildFail (e : String)
  | sendFail (e : String)
  | sentOk
  deriving DecidableEq, Repr

/-- Per-recipient control flow of the loop body (the inner `try`):
validate, build (`create_message`), submit (`server.sendmail`). -/
def stepOutcome (bErr sErr : Nat → Option String) (i : Nat) (r : String) : Outcome :=
  if validate_email r.toList = false then Outcome.invalid
  else
    match bErr i with
    | some e => Outcome.buildFail e
    | none =>
      match sErr i with
      | some e => Outcome.sendFail e
      | none => Outcome.sentOk

/-- Counter update: `failed += 1` on any failure, `sent += 1` on success. -/
def stepCounters (st : Nat × Nat) (o : Outcome) : Nat × Nat :=
  match o with
  | Outcome.sentOk => (st.1 + 1, st.2)
  | _ => (st.1, st.2 + 1)

/-- The log line yielded for one recipient's outcome. -/
def outcomeLogEv (r : String) (o : Outcome) : Ev :=
  match o with
  | Outcome.invalid => invalidLog r
  | Outcome.buildFail e => failSendLog r e
  | Outcome.sendFail e => failSendLog r e
  | Outcome.sentOk => sentLog r

/-- The progress record yielded after recipient `i` with counters `(sent, failed)`. -/
def progressAct (i total sent failed : Nat) : Act :=
  Act.emit (Ev.progress (pyPercent i total) total sent failed
    ((total : Int) - (sent : Int) - (failed : Int)))

/-- Everything the loop body yields for one recipient.  The invalid-address
branch executes `continue` (line 172 of the source), skipping both the
progress record and the pacing sleep; every other branch falls through to
the progress record and, when `i < total`, the pacing sleep. -/
def blockActs (bErr sErr : Nat → Option String) (total i : Nat) (r : String)
    (st : Nat × Nat) : List Act :=
  let o := stepOutcome bErr sErr i r
  let st' := stepCounters st o
  if o = Outcome.invalid then [Act.emit (outcomeLogEv r o)]
  else
    [Act.emit (outcomeLogEv r o), progressAct i total st'.1 st'.2]
      ++ (if i < total then [Act.sleep EMAIL_DELAY] else [])

/-- The `for i, recipient in enumerate(recipients, 1)` loop: actions
yielded and final `(sent, failed)` counters. -/
def loopGo (bErr sErr : Nat → Option String) (total : Nat) :
    List String → Nat → Nat × Nat → List Act × (Nat × Nat)
  | [], _, st => ([], st)
  | r :: rest, i, st =>
    let o := stepOutcome bErr sErr i r
    let st' := stepCounters st o
    let tail := loopGo bErr sErr total rest (i + 1) st'
    (blockActs bErr sErr total i r st ++ tail.1, tail.2)

/-! ### The dispatch generator (`EmailSender.send_emails_batch`) -/

/-- Full action sequence of one `send_emails_batch` run against environment
`env`.  Branches mirror the source: connect failure (outer handler, no
`server` so no quit), STARTTLS failure (outer handler, quit in `finally`),
`SMTPAuthenticationError` (one error log, `return`, quit), other login
exception (outer handler, quit), and the full loop path ending in the
completion log, the `complete` record, and the quit attempt. -/
def send_emails_batch (env : Env) (sender_email sender_name password subject body : String)
    (recipients : List String) (cv_data : List Nat) (cv_filename : String) : List Act :=
  let total := recipients.length
  Act.emit startLog ::
  Act.emit connectingLog ::
  match env.connectErr with
  | some e => [Act.emit (outerErrLog e)]
  | none =>
    match env.starttlsErr with
    | some e => [Act.emit (outerErrLog e), Act.quit env.quitErr]
    | none =>
      Act.emit authingLog ::
      match env.loginRes with
      | LoginRes.authErr m => [Act.emit (authFailLog m), Act.quit env.quitErr]
      | LoginRes.otherExc e => [Act.emit (outerErrLog e), Act.quit env.quitErr]
      | LoginRes.ok =>
        Act.emit authOkLog ::
        Act.emit (sendingLog total) ::
        (let lp := loopGo env.buildErr env.sendErr total recipients 1 (0, 0)
         lp.1 ++ [Act.emit (completionLog lp.2.1 lp.2.2),
                  Act.emit (Ev.complete lp.2.1 lp.2.2),
                  Act.quit env.quitErr])

/-- The events actually yielded to the consumer (quit attempts and sleeps
are not part of the NDJSON stream). -/
def eventsOf (tr : List Act) : List Ev :=
  tr.filterMap fun a => match a with | Act.emit e => some e | _ => none

/-- The progress records among the yielded events, in order. -/
def progressEvents (tr : List Act) : List Ev :=
  tr.filterMap fun a =>
    match a with
    | Act.emit (Ev.progress p t s f pd) => some (Ev.progress p t s f pd)
    | _ => none

/-! ### Credential probe (`test_email` route, connection part) -/

inductive SessionAct : Type where
  | openS (timeoutSeconds : Nat)
  | secure
  | authAttempt
  | submitMsg
  | closeS
  deriving DecidableEq, Repr

/-- Probe result, mirroring the route's three responses: 200 success,
401 authentication failure, 500 anything else. -/
inductive ProbeResult : Type where
  | okRes (msg : String)
  | authError (msg : String)
  | connectError (msg : String)
  deriving DecidableEq, Repr

structure ProbeEnv : Type where
  connectErr : Option String
  starttlsErr : Option String
  loginRes : LoginRes
  quitErr : Option String

def probeAuthHint : String :=
  "Authentication failed. For Gmail, use an App Password from https://myaccount.google.com/apppasswords"

/-- `test_email`: `SMTP('smtp.gmail.com', 587, timeout=10)`, `starttls()`,
`login(...)`, `quit()` inside one `try`; `SMTPAuthenticationError` maps to
the 401 hint, any other exception to 500 "Connection failed". -/
def test_email (env : ProbeEnv) : ProbeResult × List SessionAct :=
  match env.connectErr with
  | some _ => (ProbeResult.connectError "Connection failed", [SessionAct.openS 10])
  | none =>
    match env.starttlsErr with
    | some _ => (ProbeResult.connectError "Connection failed",
        [SessionAct.openS 10, SessionAct.secure])
    | none =>
      match env.loginRes with
      | LoginRes.authErr _ => (ProbeResult.authError probeAuthHint,
          [SessionAct.openS 10, SessionAct.secure, SessionAct.authAttempt])
      | LoginRes.otherExc _ => (ProbeResult.connectError "Connection failed",
          [SessionAct.openS 10, SessionAct.secure, SessionAct.authAttempt])
      | LoginRes.ok =>
        match env.quitErr with
        | some _ => (ProbeResult.connectError "Connection failed",
            [SessionAct.openS 10, SessionAct.secure, SessionAct.authAttempt, SessionAct.closeS])
        | none => (ProbeResult.okRes "Authentication successful",
            [SessionAct.openS 10, SessionAct.secure, SessionAct.authAttempt, SessionAct.closeS])


/-! ### Structural lemmas about the dispatch loop -/

/-- The header of every successful-authentication run. -/
def successHeader (total : Nat) : List Act :=
  [Act.emit startLog, Act.emit connectingLog, Act.emit authingLog,
   Act.emit authOkLog, Act.emit (sendingLog total)]

/-- The tail of every run that completes the loop. -/
def successFooter (sent failed : Nat) (q : Option String) : List Act :=
  [Act.emit (completionLog sent failed), Act.emit (Ev.complete sent failed), Act.quit q]

/-- Counters after the first `k` recipients of a run starting at `(0, 0)`. -/
def countersAfter (bErr sErr : Nat → Option String) (total : Nat) (rs : List String)
    (k : Nat) : Nat × Nat :=
  (loopGo bErr sErr total (rs.take k) 1 (0, 0)).2

theorem loopGo_nil_eq (bErr sErr : Nat → Option String) (total i : Nat) (st : Nat × Nat) :
    loopGo bErr sErr total [] i st = ([], st) := rfl

theorem loopGo_cons_eq (bErr sErr : Nat → Option String) (total : Nat) (r : String)
    (rest : List String) (i : Nat) (st : Nat × Nat) :
    loopGo bErr sErr total (r :: rest) i st =
      (blockActs bErr sErr total i r st
         ++ (loopGo bErr sErr total rest (i + 1)
              (stepCounters st (stepOutcome bErr sErr i r))).1,
       (loopGo bErr sErr total rest (i + 1)
          (stepCounters st (stepOutcome bErr sErr i r))).2) := rfl

theorem getLast?_append_right {α : Type} (l1 l2 : List α) (h : l2 ≠ []) :
    (l1 ++ l2).getLast? = l2.getLast? := by
  rw [List.getLast?_append]
  cases h2 : l2.getLast? with
  | none => exact absurd (List.getLast?_eq_none_iff.1 h2) h
  | some x => rfl

theorem send_success_decomp (env : Env) (se sn pw sb bd : String) (rs : List String)
    (cd : List Nat) (cf : String)
    (h1 : env.connectErr = none) (h2 : env.starttlsErr = none) (h3 : env.loginRes = LoginRes.ok) :
    send_emails_batch env se sn pw sb bd rs cd cf =
      successHeader rs.length
        ++ (loopGo env.buildErr env.sendErr rs.length rs 1 (0, 0)).1
        ++ successFooter (loopGo env.buildErr env.sendErr rs.length rs 1 (0, 0)).2.1
            (loopGo env.buildErr env.sendErr rs.length rs 1 (0, 0)).2.2 env.quitErr := by
  simp [send_emails_batch, h1, h2, h3, successHeader, successFooter]

theorem outcomeLogEv_is_log (r : String) (o : Outcome) :
    ∃ m lv, outcomeLogEv r o = Ev.log m lv := by
  cases o <;> exact ⟨_, _, rfl⟩

theorem stepOutcome_invalid_iff (bErr sErr : Nat → Option String) (i : Nat) (r : String) :
    stepOutcome bErr sErr i r = Outcome.invalid ↔ validate_email r.toList = false := by
  constructor
  · intro h
    by_cases hv : validate_email r.toList = false
    · exact hv
    · exfalso
      rw [stepOutcome, if_neg hv] at h
      cases hb : bErr i with
      | some e => rw [hb] at h; simp at h
      | none =>
        rw [hb] at h
        cases hs : sErr i with
        | some e => rw [hs] at h; simp at h
        | none => rw [hs] at h; simp at h
  · intro h
    rw [stepOutcome, if_pos h]

theorem mem_blockActs (bErr sErr : Nat → Option String) (total i : Nat) (r : String)
    (st : Nat × Nat) (a : Act) :
    a ∈ blockActs bErr sErr total i r st ↔
      a = Act.emit (outcomeLogEv r (stepOutcome bErr sErr i r)) ∨
      (stepOutcome bErr sErr i r ≠ Outcome.invalid ∧
        (a = progressAct i total (stepCounters st (stepOutcome bErr sErr i r)).1
              (stepCounters st (stepOutcome bErr sErr i r)).2 ∨
         (i < total ∧ a = Act.sleep EMAIL_DELAY))) := by
  by_cases ho : stepOutcome bErr sErr i r = Outcome.invalid
  · simp [blockActs, ho]
  · by_cases h : i < total <;> simp [blockActs, ho, h]

theorem stepCounters_sum (st : Nat × Nat) (o : Outcome) :
    (stepCounters st o).1 + (stepCounters st o).2 = st.1 + st.2 + 1 := by
  cases o <;> simp [stepCounters] <;> omega

theorem loopGo_sum (bErr sErr : Nat → Option String) (total : Nat) :
    ∀ (rs : List String) (i : Nat) (st : Nat × Nat),
      (loopGo bErr sErr total rs i st).2.1 + (loopGo bErr sErr total rs i st).2.2 =
        st.1 + st.2 + rs.length := by
  intro rs
  induction rs with
  | nil => intro i st; simp [loopGo_nil_eq]
  | cons r rest ih =>
    intro i st
    rw [loopGo_cons_eq]
    simp only []
    rw [ih]
    rw [stepCounters_sum]
    simp only [List.length_cons]
    omega

theorem loopGo_append (bErr sErr : Nat → Option String) (total : Nat) :
    ∀ (xs ys : List String) (i : Nat) (st : Nat × Nat),
      loopGo bErr sErr total (xs ++ ys) i st =
        ((loopGo bErr sErr total xs i st).1
           ++ (loopGo bErr sErr total ys (i + xs.length) (loopGo bErr sErr total xs i st).2).1,
         (loopGo bErr sErr total ys (i + xs.length) (loopGo bErr sErr total xs i st).2).2) := by
  intro xs
  induction xs with
  | nil => intro ys i st; simp [loopGo_nil_eq]
  | cons x xs ih =>
    intro ys i st
    rw [List.cons_append, loopGo_cons_eq, ih, loopGo_cons_eq]
    have harith : i + 1 + xs.length = i + (x :: xs).length := by simp; omega
    rw [harith]
    simp [List.append_assoc]

theorem loopGo_no_complete (bErr sErr : Nat → Option String) (total : Nat) :
    ∀ (rs : List String) (i : Nat) (st : Nat × Nat) (s f : Nat),
      Act.emit (Ev.complete s f) ∉ (loopGo bErr sErr total rs i st).1 := by
  intro rs
  induction rs with
  | nil => intro i st s f; simp [loopGo_nil_eq]
  | cons r rest ih =>
    intro i st s f
    rw [loopGo_cons_eq]
    simp only [List.mem_append, not_or]
    refine ⟨?_, ih _ _ _ _⟩
    intro hmem
    rw [mem_blockActs] at hmem
    obtain ⟨m, lv, hlog⟩ := outcomeLogEv_is_log r (stepOutcome bErr sErr i r)
    rcases hmem with h | ⟨_, h | ⟨_, h⟩⟩
    · rw [hlog] at h; simp at h
    · simp [progressAct] at h
    · simp at h

theorem loopGo_no_quit (bErr sErr : Nat → Option String) (total : Nat) :
    ∀ (rs : List String) (i : Nat) (st : Nat × Nat) (q : Option String),
      Act.quit q ∉ (loopGo bErr sErr total rs i st).1 := by
  intro rs
  induction rs with
  | nil => intro i st q; simp [loopGo_nil_eq]
  | cons r rest ih =>
    intro i st q
    rw [loopGo_cons_eq]
    simp only [List.mem_append, not_or]
    refine ⟨?_, ih _ _ _⟩
    intro hmem
    rw [mem_blockActs] at hmem
    rcases hmem with h | ⟨_, h | ⟨_, h⟩⟩
    · simp at h
    · simp [progressAct] at h
    · simp at h

theorem progress_in_loopGo (bErr sErr : Nat → Option String) (total : Nat) :
    ∀ (rs : List String) (i : Nat) (st : Nat × Nat),
      st.1 + st.2 + rs.length ≤ total →
      ∀ p t s f pd, Act.emit (Ev.progress p t s f pd) ∈ (loopGo bErr sErr total rs i st).1 →
        t = total ∧ s + f ≤ total ∧ pd = (total : Int) - (s : Int) - (f : Int) := by
  intro rs
  induction rs with
  | nil => intro i st _ p t s f pd h; simp [loopGo_nil_eq] at h
  | cons r rest ih =>
    intro i st hle p t s f pd h
    rw [loopGo_cons_eq] at h
    simp only [List.mem_append] at h
    rcases h with h | h
    · rw [mem_blockActs] at h
      rcases h with h | ⟨hnio, h | ⟨_, h⟩⟩
      · obtain ⟨m, lv, hlog⟩ := outcomeLogEv_is_log r (stepOutcome bErr sErr i r)
        rw [hlog] at h
        exact absurd h (by simp)
      · rw [progressAct] at h
        simp only [Act.emit.injEq, Ev.progress.injEq] at h
        obtain ⟨_, ht, hs, hf, hpd⟩ := h
        have hsum := stepCounters_sum st (stepOutcome bErr sErr i r)
        subst ht hs hf hpd
        refine ⟨rfl, ?_, rfl⟩
        simp only [List.length_cons] at hle
        omega
      · exact absurd h (by simp)
    · have hle' : (stepCounters st (stepOutcome bErr sErr i r)).1
          + (stepCounters st (stepOutcome bErr sErr i r)).2 + rest.length ≤ total := by
        have := stepCounters_sum st (stepOutcome bErr sErr i r)
        simp only [List.length_cons] at hle
        omega
      exact ih (i + 1) _ hle' p t s f pd h

theorem progressEvents_append (tr tr' : List Act) :
    progressEvents (tr ++ tr') = progressEvents tr ++ progressEvents tr' := by
  simp [progressEvents, List.filterMap_append]

theorem progressEvents_block_invalid (bErr sErr : Nat → Option String) (total i : Nat)
    (r : String) (st : Nat × Nat)
    (ho : stepOutcome bErr sErr i r = Outcome.invalid) :
    progressEvents (blockActs bErr sErr total i r st) = [] := by
  simp [blockActs, ho, progressEvents, outcomeLogEv, invalidLog]

theorem progressEvents_block_valid (bErr sErr : Nat → Option String) (total i : Nat)
    (r : String) (st : Nat × Nat)
    (ho : stepOutcome bErr sErr i r ≠ Outcome.invalid) :
    progressEvents (blockActs bErr sErr total i r st) =
      [Ev.progress (pyPercent i total) total
        (stepCounters st (stepOutcome bErr sErr i r)).1
        (stepCounters st (stepOutcome bErr sErr i r)).2
        ((total : Int) - ((stepCounters st (stepOutcome bErr sErr i r)).1 : Int)
          - ((stepCounters st (stepOutcome bErr sErr i r)).2 : Int))] := by
  obtain ⟨m, lv, hlog⟩ := outcomeLogEv_is_log r (stepOutcome bErr sErr i r)
  simp only [blockActs]
  rw [if_neg ho, hlog]
  split <;> simp [progressEvents, progressAct]

theorem progressEvents_loopGo_getLast (bErr sErr : Nat → Option String) (total : Nat) :
    ∀ (rs : List String) (i : Nat) (st : Nat × Nat) (rl : String),
      rs.getLast? = some rl → validate_email rl.toList = true →
      ∃ p pd, (progressEvents (loopGo bErr sErr total rs i st).1).getLast? =
        some (Ev.progress p total (loopGo bErr sErr total rs i st).2.1
          (loopGo bErr sErr total rs i st).2.2 pd) := by
  intro rs
  induction rs with
  | nil => intro i st rl h; simp at h
  | cons r rest ih =>
    intro i st rl hlast hvalid
    cases rest with
    | nil =>
      have hrl : rl = r := by simpa using hlast.symm
      have hv2 : validate_email r.toList = true := by rw [← hrl]; exact hvalid
      have ho : stepOutcome bErr sErr i r ≠ Outcome.invalid := by
        rw [ne_eq, stepOutcome_invalid_iff]
        simpa using hv2
      refine ⟨pyPercent i total,
        (total : Int) - ((stepCounters st (stepOutcome bErr sErr i r)).1 : Int)
          - ((stepCounters st (stepOutcome bErr sErr i r)).2 : Int), ?_⟩
      rw [loopGo_cons_eq]
      simp only [loopGo_nil_eq, List.append_nil]
      rw [progressEvents_block_valid bErr sErr total i r st ho]
      rfl
    | cons r2 rest2 =>
      have hlast' : (r2 :: rest2).getLast? = some rl := by
        rw [← hlast, List.getLast?_cons_cons]
      obtain ⟨p, pd, h2⟩ := ih (i + 1) (stepCounters st (stepOutcome bErr sErr i r))
        rl hlast' hvalid
      refine ⟨p, pd, ?_⟩
      have hne : progressEvents (loopGo bErr sErr total (r2 :: rest2) (i + 1)
          (stepCounters st (stepOutcome bErr sErr i r))).1 ≠ [] := by
        intro hnil
        rw [hnil] at h2
        simp at h2
      rw [loopGo_cons_eq]
      simp only []
      rw [progressEvents_append, getLast?_append_right _ _ hne]
      exact h2

theorem loopGo_blocks (bErr sErr : Nat → Option String) (total : Nat) :
    ∀ (rs : List String) (i : Nat) (st : Nat × Nat),
      ∃ blocks : List (List Act),
        (loopGo bErr sErr total rs i st).1 = blocks.flatten ∧
        blocks.length = rs.length ∧
        ∀ k, k < rs.length →
          blocks[k]? = some (blockActs bErr sErr total (i + k) (rs.getD k "")
            ((loopGo bErr sErr total (rs.take k) i st).2)) := by
  intro rs
  induction rs with
  | nil =>
    intro i st
    exact ⟨[], by simp [loopGo_nil_eq], rfl, fun k hk => absurd hk (by simp)⟩
  | cons r rest ih =>
    intro i st
    obtain ⟨bl, hjoin, hlen, hidx⟩ := ih (i + 1) (stepCounters st (stepOutcome bErr sErr i r))
    refine ⟨blockActs bErr sErr total i r st :: bl, ?_, ?_, ?_⟩
    · rw [loopGo_cons_eq]
      simp [hjoin]
    · simp [hlen]
    · intro k hk
      cases k with
      | zero => simp [loopGo_nil_eq]
      | succ k =>
        have hk' : k < rest.length := by simpa using hk
        have hrec := hidx k hk'
        simp only [List.getElem?_cons_succ, List.getD_cons_succ, List.take_succ_cons]
        rw [hrec]
        have harith : i + 1 + k = i + (k + 1) := by omega
        rw [harith]
        rfl

theorem countersAfter_succ (bErr sErr : Nat → Option String) (total : Nat) (rs : List String)
    (k : Nat) (hk : k < rs.length) :
    countersAfter bErr sErr total rs (k + 1) =
      stepCounters (countersAfter bErr sErr total rs k)
        (stepOutcome bErr sErr (1 + k) (rs.getD k "")) := by
  unfold countersAfter
  have htake : rs.take (k + 1) = rs.take k ++ [rs.getD k ""] := by
    rw [List.getD_eq_getElem rs "" hk]
    exact (List.take_concat_get' rs k hk).symm
  rw [htake, loopGo_append]
  have hlen : (rs.take k).length = k := by
    simp [List.length_take, Nat.min_eq_left (Nat.le_of_lt hk)]
  rw [hlen]
  rw [loopGo_cons_eq]
  simp [loopGo_nil_eq]


/-! ### Path lemmas for the dispatch generator -/

theorem send_connectFail (env : Env) (se sn pw sb bd : String) (rs : List String)
    (cd : List Nat) (cf : String) (e : String) (h : env.connectErr = some e) :
    send_emails_batch env se sn pw sb bd rs cd cf =
      [Act.emit startLog, Act.emit connectingLog, Act.emit (outerErrLog e)] := by
  simp [send_emails_batch, h]

theorem send_tlsFail (env : Env) (se sn pw sb bd : String) (rs : List String)
    (cd : List Nat) (cf : String) (e : String)
    (h1 : env.connectErr = none) (h2 : env.starttlsErr = some e) :
    send_emails_batch env se sn pw sb bd rs cd cf =
      [Act.emit startLog, Act.emit connectingLog, Act.emit (outerErrLog e),
       Act.quit env.quitErr] := by
  simp [send_emails_batch, h1, h2]

theorem send_authFail (env : Env) (se sn pw sb bd : String) (rs : List String)
    (cd : List Nat) (cf : String) (m : String)
    (h1 : env.connectErr = none) (h2 : env.starttlsErr = none)
    (h3 : env.loginRes = LoginRes.authErr m) :
    send_emails_batch env se sn pw sb bd rs cd cf =
      [Act.emit startLog, Act.emit connectingLog, Act.emit authingLog,
       Act.emit (authFailLog m), Act.quit env.quitErr] := by
  simp [send_emails_batch, h1, h2, h3]

theorem send_loginExc (env : Env) (se sn pw sb bd : String) (rs : List String)
    (cd : List Nat) (cf : String) (e : String)
    (h1 : env.connectErr = none) (h2 : env.starttlsErr = none)
    (h3 : env.loginRes = LoginRes.otherExc e) :
    send_emails_batch env se sn pw sb bd rs cd cf =
      [Act.emit startLog, Act.emit connectingLog, Act.emit authingLog,
       Act.emit (outerErrLog e), Act.quit env.quitErr] := by
  simp [send_emails_batch, h1, h2, h3]

theorem mem_eventsOf (e : Ev) (tr : List Act) : e ∈ eventsOf tr ↔ Act.emit e ∈ tr := by
  simp only [eventsOf, List.mem_filterMap]
  constructor
  · rintro ⟨a, ha, hfa⟩
    cases a with
    | emit e2 => simp only [Option.some.injEq] at hfa; subst hfa; exact ha
    | sleep n => simp at hfa
    | quit q => simp at hfa
  · intro h
    exact ⟨Act.emit e, h, rfl⟩

theorem authFailLog_is_log (m : String) : ∃ m2, authFailLog m = Ev.log m2 "error" := by
  rw [authFailLog]
  split <;> exact ⟨_, rfl⟩

theorem eventsOf_success (total : Nat) (L : List Act) (s f : Nat) (q : Option String) :
    eventsOf (successHeader total ++ L ++ successFooter s f q) =
      [startLog, connectingLog, authingLog, authOkLog, sendingLog total]
        ++ eventsOf L ++ [completionLog s f, Ev.complete s f] := by
  simp [eventsOf, successHeader, successFooter, List.filterMap_append]

/-- `level == "error"` log records (the dispatch stream's error lines). -/
def isErrorLog (e : Ev) : Bool :=
  match e with
  | Ev.log _ lv => lv == "error"
  | _ => false

/-- Environment of a fully successful run: every external call succeeds. -/
def env0 : Env :=
  { connectErr := none, starttlsErr := none, loginRes := LoginRes.ok,
    buildErr := fun _ => none, sendErr := fun _ => none, quitErr := none }

/-- Environment whose authentication fails with the credentials-rejected
signature in the relay message. -/
def envAuth : Env :=
  { connectErr := none, starttlsErr := none,
    loginRes := LoginRes.authErr "535-5.7.8 Username and Password not accepted.",
    buildErr := fun _ => none, sendErr := fun _ => none, quitErr := none }

/-- Fifty valid recipients (a run of `total = 50`). -/
def rs50 : List String := List.replicate 50 "a@b.com"


/-! ### Claim theorems -/

/-- C7: for every campaign and recipient, `create_message` truncates the
subject to at most 200 characters and the body to at most 5000 characters
before assignment (never rejecting over-length input, which the totality of
the builder witnesses), and attaches the body as plain text. -/
theorem create_message_truncates (se sn re sb bd : List Char) (cd : List Nat) (cf : List Char) :
    (create_message se sn re sb bd cd cf).subject = sb.take 200 ∧
    (create_message se sn re sb bd cd cf).subject.length ≤ 200 ∧
    (create_message se sn re sb bd cd cf).bodyText = bd.take 5000 ∧
    (create_message se sn re sb bd cd cf).bodyText.length ≤ 5000 ∧
    (create_message se sn re sb bd cd cf).bodySubtype = "plain".toList := by
  refine ⟨rfl, ?_, rfl, ?_, rfl⟩ <;>
    simp [create_message, MAX_SUBJECT_LENGTH, MAX_EMAIL_BODY_LENGTH, List.length_take]

/-- C3 counterexample: the claim's iff over the raw string fails, because
the validator strips surrounding whitespace before matching.  The
nonempty, length-9 string `" a@b.com "` is accepted by the validator but
does not have the claimed `local-part@domain` shape (a space is not a
local-part character). -/
theorem validator_unstripped_counterexample :
    validate_email (" a@b.com ".toList) = true ∧
    ¬ emailShape (" a@b.com ".toList) ∧
    " a@b.com ".toList ≠ [] ∧ (" a@b.com ".toList).length ≤ 254 := by
  refine ⟨by decide, ?_, by decide, by decide⟩
  intro h
  have hm := (matchesEmailRegex_iff_emailShape (" a@b.com ".toList)).2 h
  have hf : matchesEmailRegex (" a@b.com ".toList) = false := by decide
  rw [hf] at hm
  exact Bool.false_ne_true hm

/-- C3 (amended): the validator returns false on the empty string and on
strings longer than 254 characters; otherwise it returns true iff the
string, after stripping leading and trailing whitespace, has the shape
`local-part@domain` with local part over `[A-Za-z0-9._%+-]` and domain over
`[A-Za-z0-9.-]` ending in a final label of at least two alphabetic
characters; in particular `"a@b.com"` is accepted, `""`, `"no-at-sign"`,
`"a@b"` and every 255-character string are rejected. -/
theorem validator_contract :
    (∀ s : List Char,
      (s = [] → validate_email s = false) ∧
      (254 < s.length → validate_email s = false) ∧
      (s ≠ [] → s.length ≤ 254 → (validate_email s = true ↔ emailShape (pyStrip s)))) ∧
    validate_email ("a@b.com".toList) = true ∧
    validate_email ("".toList) = false ∧
    validate_email ("no-at-sign".toList) = false ∧
    validate_email ("a@b".toList) = false ∧
    (∀ s : List Char, s.length = 255 → validate_email s = false) := by
  refine ⟨?_, by decide, by decide, by decide, by decide, ?_⟩
  · intro s
    refine ⟨?_, ?_, ?_⟩
    · intro h; subst h; rfl
    · intro h
      rw [validate_email, if_pos (Or.inr h)]
    · intro h1 h2
      rw [validate_email, if_neg ?_]
      · exact matchesEmailRegex_iff_emailShape (pyStrip s)
      · rintro (h | h)
        · exact h1 (List.isEmpty_iff.1 h)
        · omega
  · intro s h
    rw [validate_email, if_pos (Or.inr (by omega))]

/-- C3 witness: the amended contract applied to the concrete accepted
address `"a@b.com"`. -/
theorem validator_contract_witness :
    validate_email ("a@b.com".toList) = true ↔ emailShape (pyStrip ("a@b.com".toList)) :=
  (validator_contract.1 ("a@b.com".toList)).2.2 (by decide) (by decide)


/-- Probe environment in which everything up to and including
authentication succeeds but the teardown `quit()` raises. -/
def probeQuitFailEnv : ProbeEnv :=
  { connectErr := none, starttlsErr := none, loginRes := LoginRes.ok,
    quitErr := some "connection reset by peer" }

/-- C9 counterexample: authentication succeeds (login result is `ok`, the
session was opened and secured), yet the probe does not return Ok — the
`quit()` failure inside the same `try` is reported as the generic 500
"Connection failed".  So "Ok iff authentication succeeds" is false. -/
theorem probe_quit_counterexample :
    probeQuitFailEnv.connectErr = none ∧
    probeQuitFailEnv.starttlsErr = none ∧
    probeQuitFailEnv.loginRes = LoginRes.ok ∧
    (test_email probeQuitFailEnv).1 = ProbeResult.connectError "Connection failed" ∧
    (test_email probeQuitFailEnv).1 ≠ ProbeResult.okRes "Authentication successful" := by
  refine ⟨rfl, rfl, rfl, rfl, by decide⟩

/-- C9 (amended): the probe opens a relay session with a 10-second
timeout, secures it, authenticates and closes it, returning Ok iff the
connect, secure, authenticate and close steps all succeed (a teardown
failure after successful authentication is reported as ConnectError);
authentication rejection yields a distinguishable AuthError and every
other failure a ConnectError; no path ever submits a message. -/
theorem probe_contract (env : ProbeEnv) :
    ((test_email env).1 = ProbeResult.okRes "Authentication successful" ↔
      env.connectErr = none ∧ env.starttlsErr = none ∧ env.loginRes = LoginRes.ok ∧
        env.quitErr = none) ∧
    SessionAct.submitMsg ∉ (test_email env).2 ∧
    (test_email env).2.head? = some (SessionAct.openS 10) ∧
    (∀ m, env.connectErr = none → env.starttlsErr = none → env.loginRes = LoginRes.authErr m →
      (test_email env).1 = ProbeResult.authError probeAuthHint) ∧
    (env.connectErr = none → env.starttlsErr = none → env.loginRes = LoginRes.ok →
      (test_email env).2 =
        [SessionAct.openS 10, SessionAct.secure, SessionAct.authAttempt, SessionAct.closeS]) ∧
    (∀ e, env.connectErr = some e →
      (test_email env).1 = ProbeResult.connectError "Connection failed") := by
  rcases env with ⟨ce, te, lr, qe⟩
  cases ce <;> cases te <;> cases lr <;> cases qe <;>
    simp [test_email]

/-- Probe environment whose authentication is rejected. -/
def probeAuthEnv : ProbeEnv :=
  { connectErr := none, starttlsErr := none,
    loginRes := LoginRes.authErr "bad credentials", quitErr := none }

/-- C9 witness: the amended contract applied to a concrete
authentication-rejected probe. -/
theorem probe_contract_witness :
    (test_email probeAuthEnv).1 = ProbeResult.authError probeAuthHint :=
  (probe_contract probeAuthEnv).2.2.2.1 "bad credentials" rfl rfl rfl

/-- C2 (amended): in every run, every emitted progress record satisfies
`sent + failed ≤ total` and `pending = total - sent - failed` exactly; and
whenever the final recipient passes address validation, the last progress
record of the run has `sent + failed = total`.  (When the final recipient
is invalid its iteration skips the progress record, so the last emitted
progress record stops short of `total`.) -/
theorem progress_invariants (env : Env) (se sn pw sb bd : String) (rs : List String)
    (cd : List Nat) (cf : String) :
    (∀ p t s f pd,
        Ev.progress p t s f pd ∈ eventsOf (send_emails_batch env se sn pw sb bd rs cd cf) →
        s + f ≤ rs.length ∧ pd = (rs.length : Int) - (s : Int) - (f : Int)) ∧
    (∀ rl, rs.getLast? = some rl → validate_email rl.toList = true →
      ∀ p t s f pd,
        (progressEvents (send_emails_batch env se sn pw sb bd rs cd cf)).getLast? =
          some (Ev.progress p t s f pd) →
        s + f = rs.length) := by
  constructor
  · intro p t s f pd hmem
    rw [mem_eventsOf] at hmem
    rcases hc : env.connectErr with _ | e1
    · rcases ht : env.starttlsErr with _ | e2
      · rcases hl : env.loginRes with _ | m | e3
        · rw [send_success_decomp env se sn pw sb bd rs cd cf hc ht hl] at hmem
          simp only [successHeader, successFooter, List.mem_append, List.mem_cons,
            List.not_mem_nil, or_false] at hmem
          rcases hmem with ((h | h | h | h | h) | h) | (h | h | h)
          · exact absurd h (by simp [startLog])
          · exact absurd h (by simp [connectingLog])
          · exact absurd h (by simp [authingLog])
          · exact absurd h (by simp [authOkLog])
          · exact absurd h (by simp [sendingLog])
          · exact (progress_in_loopGo env.buildErr env.sendErr rs.length rs 1 (0, 0)
              (by simp) p t s f pd h).2
          · exact absurd h (by simp [completionLog])
          · exact absurd h (by simp)
          · exact absurd h (by simp)
        · rw [send_authFail env se sn pw sb bd rs cd cf m hc ht hl] at hmem
          obtain ⟨m2, hm2⟩ := authFailLog_is_log m
          simp [startLog, connectingLog, authingLog, hm2] at hmem
        · rw [send_loginExc env se sn pw sb bd rs cd cf e3 hc ht hl] at hmem
          simp [startLog, connectingLog, authingLog, outerErrLog] at hmem
      · rw [send_tlsFail env se sn pw sb bd rs cd cf e2 hc ht] at hmem
        simp [startLog, connectingLog, outerErrLog] at hmem
    · rw [send_connectFail env se sn pw sb bd rs cd cf e1 hc] at hmem
      simp [startLog, connectingLog, outerErrLog] at hmem
  · intro rl hrl hv p t s f pd hlast
    rcases hc : env.connectErr with _ | e1
    · rcases ht : env.starttlsErr with _ | e2
      · rcases hl : env.loginRes with _ | m | e3
        · rw [send_success_decomp env se sn pw sb bd rs cd cf hc ht hl] at hlast
          · obtain ⟨p2, pd2, h2⟩ :=
              progressEvents_loopGo_getLast env.buildErr env.sendErr rs.length rs 1 (0, 0)
                rl hrl hv
            rw [progressEvents_append, progressEvents_append] at hlast
            have hhead : progressEvents (successHeader rs.length) = [] := by
              simp [progressEvents, successHeader, startLog, connectingLog, authingLog,
                authOkLog, sendingLog]
            have hfoot : progressEvents (successFooter
                (loopGo env.buildErr env.sendErr rs.length rs 1 (0, 0)).2.1
                (loopGo env.buildErr env.sendErr rs.length rs 1 (0, 0)).2.2 env.quitErr) = [] := by
              simp [progressEvents, successFooter, completionLog]
            rw [hhead, hfoot, List.nil_append, List.append_nil, h2] at hlast
            have hsum := loopGo_sum env.buildErr env.sendErr rs.length rs 1 (0, 0)
            simp only [Option.some.injEq, Ev.progress.injEq] at hlast
            obtain ⟨_, _, hs, hf, _⟩ := hlast
            subst hs hf
            simpa using hsum
        · rw [send_authFail env se sn pw sb bd rs cd cf m hc ht hl] at hlast
          obtain ⟨m2, hm2⟩ := authFailLog_is_log m
          simp [progressEvents, startLog, connectingLog, authingLog, hm2] at hlast
        · rw [send_loginExc env se sn pw sb bd rs cd cf e3 hc ht hl] at hlast
          simp [progressEvents, startLog, connectingLog, authingLog, outerErrLog] at hlast
      · rw [send_tlsFail env se sn pw sb bd rs cd cf e2 hc ht] at hlast
        simp [progressEvents, startLog, connectingLog, outerErrLog] at hlast
    · rw [send_connectFail env se sn pw sb bd rs cd cf e1 hc] at hlast
      simp [progressEvents, startLog, connectingLog, outerErrLog] at hlast

/-- C2 witness: the invariant applied to the progress record of a concrete
one-recipient run. -/
theorem progress_invariants_witness :
    1 + 0 ≤ (["a@b.com"] : List String).length ∧
    (0 : Int) = ((["a@b.com"] : List String).length : Int) - ((1 : Nat) : Int)
      - ((0 : Nat) : Int) :=
  (progress_invariants env0 "s" "n" "p" "su" "b" ["a@b.com"] [37] "cv").1
    100 1 1 0 0 (by decide)


/-- C10: each loop iteration increments exactly one counter by exactly 1 —
failed validation, a build failure and a submit failure each add 1 to
`failed`, a successful submit adds 1 to `sent` — hence after the first `k`
recipients `sent + failed = k`, and both counters are monotonically
non-decreasing across the run. -/
theorem counters_per_iteration (bErr sErr : Nat → Option String) (total : Nat)
    (rs : List String) :
    (∀ i r st, stepOutcome bErr sErr i r = Outcome.sentOk →
        stepCounters st (stepOutcome bErr sErr i r) = (st.1 + 1, st.2)) ∧
    (∀ i r st, stepOutcome bErr sErr i r ≠ Outcome.sentOk →
        stepCounters st (stepOutcome bErr sErr i r) = (st.1, st.2 + 1)) ∧
    (∀ i r, validate_email r.toList = false → stepOutcome bErr sErr i r = Outcome.invalid) ∧
    (∀ i r e, validate_email r.toList = true → bErr i = some e →
        stepOutcome bErr sErr i r = Outcome.buildFail e) ∧
    (∀ i r e, validate_email r.toList = true → bErr i = none → sErr i = some e →
        stepOutcome bErr sErr i r = Outcome.sendFail e) ∧
    (∀ i r, validate_email r.toList = true → bErr i = none → sErr i = none →
        stepOutcome bErr sErr i r = Outcome.sentOk) ∧
    (∀ k, k ≤ rs.length →
        (countersAfter bErr sErr total rs k).1 + (countersAfter bErr sErr total rs k).2 = k) ∧
    (∀ k, (countersAfter bErr sErr total rs k).1 ≤ (countersAfter bErr sErr total rs (k + 1)).1 ∧
        (countersAfter bErr sErr total rs k).2 ≤ (countersAfter bErr sErr total rs (k + 1)).2 ∧
        (countersAfter bErr sErr total rs (k + 1)).1
            + (countersAfter bErr sErr total rs (k + 1)).2
          ≤ (countersAfter bErr sErr total rs k).1
            + (countersAfter bErr sErr total rs k).2 + 1) := by
  refine ⟨?_, ?_, ?_, ?_, ?_, ?_, ?_, ?_⟩
  · intro i r st h
    rw [h]
    rfl
  · intro i r st h
    cases ho : stepOutcome bErr sErr i r with
    | sentOk => exact absurd ho h
    | invalid => rfl
    | buildFail e => rfl
    | sendFail e => rfl
  · intro i r h
    rw [stepOutcome, if_pos h]
  · intro i r e h hb
    rw [stepOutcome, if_neg (by simpa using h), hb]
  · intro i r e h hb hs
    rw [stepOutcome, if_neg (by simpa using h), hb, hs]
  · intro i r h hb hs
    rw [stepOutcome, if_neg (by simpa using h), hb, hs]
  · intro k hk
    have := loopGo_sum bErr sErr total (rs.take k) 1 (0, 0)
    unfold countersAfter
    rw [this]
    simp [List.length_take]
    omega
  · intro k
    by_cases hk : k < rs.length
    · rw [countersAfter_succ bErr sErr total rs k hk]
      cases stepOutcome bErr sErr (1 + k) (rs.getD k "") <;>
        simp [stepCounters] <;> omega
    · have heq : rs.take (k + 1) = rs.take k := by
        rw [List.take_of_length_le (by omega), List.take_of_length_le (by omega)]
      unfold countersAfter
      rw [heq]
      omega

/-- C10 witness: after processing both recipients of a concrete
two-recipient run (one valid and sent, one invalid), `sent + failed = 2`. -/
theorem counters_per_iteration_witness :
    (countersAfter (fun _ => none) (fun _ => none) 2 ["a@b.com", "bad"] 2).1
      + (countersAfter (fun _ => none) (fun _ => none) 2 ["a@b.com", "bad"] 2).2 = 2 :=
  (counters_per_iteration (fun _ => none) (fun _ => none) 2
    ["a@b.com", "bad"]).2.2.2.2.2.2.1 2 (by decide)

/-- C4: on every exit path of a run that opened the relay session (normal
completion, authentication failure, or mid-run error) the session teardown
`quit()` is attempted exactly once, as the very last action, so the
session is closed before the event sequence ends; and a teardown error is
swallowed — the yielded event stream is identical whatever the teardown
outcome, so it never masks an earlier failure's reported cause. -/
theorem teardown_guaranteed (env : Env) (se sn pw sb bd : String) (rs : List String)
    (cd : List Nat) (cf : String) (h : env.connectErr = none) :
    (∃ pre, send_emails_batch env se sn pw sb bd rs cd cf = pre ++ [Act.quit env.quitErr] ∧
        ∀ q, Act.quit q ∉ pre) ∧
    (∀ q, eventsOf (send_emails_batch { env with quitErr := q } se sn pw sb bd rs cd cf) =
        eventsOf (send_emails_batch env se sn pw sb bd rs cd cf)) := by
  rcases ht : env.starttlsErr with _ | e2
  · rcases hl : env.loginRes with _ | m | e3
    · constructor
      · refine ⟨successHeader rs.length ++ (loopGo env.buildErr env.sendErr rs.length rs 1 (0, 0)).1
          ++ [Act.emit (completionLog (loopGo env.buildErr env.sendErr rs.length rs 1 (0, 0)).2.1
                (loopGo env.buildErr env.sendErr rs.length rs 1 (0, 0)).2.2),
              Act.emit (Ev.complete (loopGo env.buildErr env.sendErr rs.length rs 1 (0, 0)).2.1
                (loopGo env.buildErr env.sendErr rs.length rs 1 (0, 0)).2.2)], ?_, ?_⟩
        · rw [send_success_decomp env se sn pw sb bd rs cd cf h ht hl]
          simp [successFooter]
        · intro q
          simp only [List.mem_append, not_or, successHeader]
          refine ⟨⟨by simp, ?_⟩, by simp⟩
          exact loopGo_no_quit env.buildErr env.sendErr rs.length rs 1 (0, 0) q
      · intro q
        simp only [send_emails_batch, h, ht, hl]
        simp [eventsOf, List.filterMap_append]
    · constructor
      · refine ⟨[Act.emit startLog, Act.emit connectingLog, Act.emit authingLog,
          Act.emit (authFailLog m)], ?_, by simp⟩
        rw [send_authFail env se sn pw sb bd rs cd cf m h ht hl]
        simp
      · intro q
        simp only [send_emails_batch, h, ht, hl]
        simp [eventsOf]
    · constructor
      · refine ⟨[Act.emit startLog, Act.emit connectingLog, Act.emit authingLog,
          Act.emit (outerErrLog e3)], ?_, by simp⟩
        rw [send_loginExc env se sn pw sb bd rs cd cf e3 h ht hl]
        simp
      · intro q
        simp only [send_emails_batch, h, ht, hl]
        simp [eventsOf]
  · constructor
    · refine ⟨[Act.emit startLog, Act.emit connectingLog, Act.emit (outerErrLog e2)], ?_, by simp⟩
      rw [send_tlsFail env se sn pw sb bd rs cd cf e2 h ht]
      simp
    · intro q
      simp only [send_emails_batch, h, ht]
      simp [eventsOf]

/-- C4 witness: the teardown guarantee applied to a concrete successful run. -/
theorem teardown_guaranteed_witness :
    (∃ pre, send_emails_batch env0 "s" "n" "p" "su" "b" ["a@b.com"] [37] "cv" =
        pre ++ [Act.quit env0.quitErr] ∧ ∀ q, Act.quit q ∉ pre) ∧
    (∀ q, eventsOf (send_emails_batch { env0 with quitErr := q } "s" "n" "p" "su" "b"
        ["a@b.com"] [37] "cv") =
      eventsOf (send_emails_batch env0 "s" "n" "p" "su" "b" ["a@b.com"] [37] "cv")) :=
  teardown_guaranteed env0 "s" "n" "p" "su" "b" ["a@b.com"] [37] "cv" rfl


/-- C5 counterexample: the relay's message carries the
credentials-rejected signature, yet the run emits exactly one error log
event (the hint is folded into a single log line), not two as claimed. -/
theorem auth_failure_single_log_counterexample :
    containsSub credSignature
      ("535-5.7.8 Username and Password not accepted.".toList) = true ∧
    ((eventsOf (send_emails_batch envAuth "s" "n" "p" "su" "b" ["a@b.com"] [37] "cv")).filter
        isErrorLog).length = 1 ∧
    (1 : Nat) ≠ 2 := by
  refine ⟨by decide, by decide, by decide⟩

/-- C5 (amended): when authentication fails, the run emits exactly one
error log event — carrying the app-password hint iff the relay message
contains the credentials-not-accepted signature — emits zero progress
records and no complete record, closes the session, and ends the
sequence. -/
theorem auth_failure_events (env : Env) (se sn pw sb bd : String) (rs : List String)
    (cd : List Nat) (cf : String) (m : String)
    (h1 : env.connectErr = none) (h2 : env.starttlsErr = none)
    (h3 : env.loginRes = LoginRes.authErr m) :
    (eventsOf (send_emails_batch env se sn pw sb bd rs cd cf)).filter isErrorLog
        = [authFailLog m] ∧
    ((eventsOf (send_emails_batch env se sn pw sb bd rs cd cf)).filter isErrorLog).length = 1 ∧
    (containsSub credSignature m.toList = true →
      authFailLog m = Ev.log
        ("Authentication failed! For Gmail, use an App Password, not your regular password. "
          ++ "Generate one at: https://myaccount.google.com/apppasswords") "error") ∧
    (containsSub credSignature m.toList = false →
      authFailLog m = Ev.log ("Authentication failed: " ++ m) "error") ∧
    progressEvents (send_emails_batch env se sn pw sb bd rs cd cf) = [] ∧
    (∀ s f, Ev.complete s f ∉ eventsOf (send_emails_batch env se sn pw sb bd rs cd cf)) ∧
    send_emails_batch env se sn pw sb bd rs cd cf =
      [Act.emit startLog, Act.emit connectingLog, Act.emit authingLog,
       Act.emit (authFailLog m), Act.quit env.quitErr] := by
  have htr := send_authFail env se sn pw sb bd rs cd cf m h1 h2 h3
  obtain ⟨m2, hm2⟩ := authFailLog_is_log m
  rw [htr]
  refine ⟨?_, ?_, ?_, ?_, ?_, ?_, rfl⟩
  · rw [hm2]
    simp [eventsOf, startLog, connectingLog, authingLog, isErrorLog]
  · rw [hm2]
    simp [eventsOf, startLog, connectingLog, authingLog, isErrorLog]
  · intro h
    rw [authFailLog, if_pos h]
  · intro h
    rw [authFailLog, if_neg (by simpa using h)]
  · rw [hm2]
    simp [progressEvents, startLog, connectingLog, authingLog]
  · intro s f
    rw [hm2]
    simp [eventsOf, startLog, connectingLog, authingLog]

/-- C5 witness: the amended statement at a concrete signature-matching
authentication failure. -/
theorem auth_failure_events_witness :
    (eventsOf (send_emails_batch envAuth "s" "n" "p" "su" "b" ["a@b.com"] [37] "cv")).filter
        isErrorLog = [authFailLog "535-5.7.8 Username and Password not accepted."] :=
  (auth_failure_events envAuth "s" "n" "p" "su" "b" ["a@b.com"] [37] "cv"
    "535-5.7.8 Username and Password not accepted." rfl rfl rfl).1

/-- C8: whenever a complete record is emitted, it is the final event of
the stream, immediately preceded by the completion success log, and it is
the only complete record of the run. -/
theorem complete_is_last (env : Env) (se sn pw sb bd : String) (rs : List String)
    (cd : List Nat) (cf : String)
    (h : ∃ s f, Ev.complete s f ∈ eventsOf (send_emails_batch env se sn pw sb bd rs cd cf)) :
    ∃ pre s f, eventsOf (send_emails_batch env se sn pw sb bd rs cd cf) =
        pre ++ [completionLog s f, Ev.complete s f] ∧
      ∀ s2 f2, Ev.complete s2 f2 ∉ pre := by
  obtain ⟨s0, f0, hmem⟩ := h
  rcases hc : env.connectErr with _ | e1
  · rcases ht : env.starttlsErr with _ | e2
    · rcases hl : env.loginRes with _ | m | e3
      · refine ⟨[startLog, connectingLog, authingLog, authOkLog, sendingLog rs.length]
            ++ eventsOf (loopGo env.buildErr env.sendErr rs.length rs 1 (0, 0)).1,
          (loopGo env.buildErr env.sendErr rs.length rs 1 (0, 0)).2.1,
          (loopGo env.buildErr env.sendErr rs.length rs 1 (0, 0)).2.2, ?_, ?_⟩
        · rw [send_success_decomp env se sn pw sb bd rs cd cf hc ht hl, eventsOf_success]
        · intro s2 f2 hmm2
          rcases List.mem_append.1 hmm2 with hA | hB
          · simp [startLog, connectingLog, authingLog, authOkLog, sendingLog] at hA
          · rw [mem_eventsOf] at hB
            exact loopGo_no_complete env.buildErr env.sendErr rs.length rs 1 (0, 0) s2 f2 hB
      · rw [send_authFail env se sn pw sb bd rs cd cf m hc ht hl] at hmem
        obtain ⟨m2, hm2⟩ := authFailLog_is_log m
        rw [hm2] at hmem
        simp [eventsOf, startLog, connectingLog, authingLog] at hmem
      · rw [send_loginExc env se sn pw sb bd rs cd cf e3 hc ht hl] at hmem
        simp [eventsOf, startLog, connectingLog, authingLog, outerErrLog] at hmem
    · rw [send_tlsFail env se sn pw sb bd rs cd cf e2 hc ht] at hmem
      simp [eventsOf, startLog, connectingLog, outerErrLog] at hmem
  · rw [send_connectFail env se sn pw sb bd rs cd cf e1 hc] at hmem
    simp [eventsOf, startLog, connectingLog, outerErrLog] at hmem

/-- C8 witness: the ordering guarantee applied to a concrete completed
run. -/
theorem complete_is_last_witness :
    ∃ pre s f, eventsOf (send_emails_batch env0 "s" "n" "p" "su" "b" ["a@b.com"] [37] "cv") =
        pre ++ [completionLog s f, Ev.complete s f] ∧
      ∀ s2 f2, Ev.complete s2 f2 ∉ pre :=
  complete_is_last env0 "s" "n" "p" "su" "b" ["a@b.com"] [37] "cv" ⟨1, 0, by decide⟩


/-- C6: in every run of at least one recipient that reaches the loop,
the stream decomposes into one block per recipient; every progress record
lives in some block, and a block either carries no progress record and no
sleep (the invalid-address branch) or is exactly an outcome log and one
progress record followed by a 1-second sleep iff `i < total`; no sleep
occurs outside the blocks.  Hence a fixed 1-second pacing sleep
immediately follows each progress record with `i < total`, and no sleep
follows the final recipient's progress record. -/
theorem pacing_spec (env : Env) (se sn pw sb bd : String) (rs : List String)
    (cd : List Nat) (cf : String)
    (h1 : env.connectErr = none) (h2 : env.starttlsErr = none)
    (h3 : env.loginRes = LoginRes.ok) (hne : rs ≠ []) :
    ∃ blocks : List (List Act),
      send_emails_batch env se sn pw sb bd rs cd cf =
        successHeader rs.length ++ blocks.flatten ++
          successFooter (loopGo env.buildErr env.sendErr rs.length rs 1 (0, 0)).2.1
            (loopGo env.buildErr env.sendErr rs.length rs 1 (0, 0)).2.2 env.quitErr ∧
      blocks.length = rs.length ∧
      (∀ k, k < rs.length → ∃ lg, (∃ m lv, lg = Ev.log m lv) ∧
        (blocks[k]? = some [Act.emit lg] ∨
         ∃ pr, (∃ p t s f pd, pr = Ev.progress p t s f pd) ∧
           blocks[k]? = some ([Act.emit lg, Act.emit pr]
             ++ (if k + 1 < rs.length then [Act.sleep 1] else [])))) ∧
      (∀ n, Act.sleep n ∉ successHeader rs.length) ∧
      (∀ n s f q, Act.sleep n ∉ successFooter s f q) := by
  obtain ⟨blocks, hjoin, hlen, hidx⟩ :=
    loopGo_blocks env.buildErr env.sendErr rs.length rs 1 (0, 0)
  refine ⟨blocks, ?_, hlen, ?_, ?_, ?_⟩
  · rw [send_success_decomp env se sn pw sb bd rs cd cf h1 h2 h3, hjoin]
  · intro k hk
    have hb := hidx k hk
    refine ⟨outcomeLogEv (rs.getD k "")
        (stepOutcome env.buildErr env.sendErr (1 + k) (rs.getD k "")),
      outcomeLogEv_is_log _ _, ?_⟩
    by_cases ho : stepOutcome env.buildErr env.sendErr (1 + k) (rs.getD k "")
        = Outcome.invalid
    · left
      rw [hb]
      simp only [blockActs]
      rw [if_pos ho]
    · right
      refine ⟨Ev.progress (pyPercent (1 + k) rs.length) rs.length
        (stepCounters ((loopGo env.buildErr env.sendErr rs.length (rs.take k) 1 (0, 0)).2)
          (stepOutcome env.buildErr env.sendErr (1 + k) (rs.getD k ""))).1
        (stepCounters ((loopGo env.buildErr env.sendErr rs.length (rs.take k) 1 (0, 0)).2)
          (stepOutcome env.buildErr env.sendErr (1 + k) (rs.getD k ""))).2
        ((rs.length : Int)
          - ((stepCounters ((loopGo env.buildErr env.sendErr rs.length (rs.take k) 1 (0, 0)).2)
              (stepOutcome env.buildErr env.sendErr (1 + k) (rs.getD k ""))).1 : Int)
          - ((stepCounters ((loopGo env.buildErr env.sendErr rs.length (rs.take k) 1 (0, 0)).2)
              (stepOutcome env.buildErr env.sendErr (1 + k) (rs.getD k ""))).2 : Int)),
        ⟨_, _, _, _, _, rfl⟩, ?_⟩
      rw [hb]
      have harith : k + 1 = 1 + k := Nat.add_comm k 1
      rw [harith]
      simp only [blockActs]
      rw [if_neg ho]
      rfl
  · intro n
    simp [successHeader]
  · intro n s f q
    simp [successFooter]

/-- C6 witness: the pacing structure of a concrete two-recipient run. -/
theorem pacing_spec_witness :
    ∃ blocks : List (List Act),
      send_emails_batch env0 "s" "n" "p" "su" "b" ["a@b.com", "c@d.org"] [37] "cv" =
        successHeader (["a@b.com", "c@d.org"] : List String).length ++ blocks.flatten ++
          successFooter (loopGo env0.buildErr env0.sendErr
              (["a@b.com", "c@d.org"] : List String).length ["a@b.com", "c@d.org"] 1 (0, 0)).2.1
            (loopGo env0.buildErr env0.sendErr
              (["a@b.com", "c@d.org"] : List String).length ["a@b.com", "c@d.org"] 1 (0, 0)).2.2
            env0.quitErr ∧
      blocks.length = (["a@b.com", "c@d.org"] : List String).length ∧
      (∀ k, k < (["a@b.com", "c@d.org"] : List String).length → ∃ lg,
        (∃ m lv, lg = Ev.log m lv) ∧
        (blocks[k]? = some [Act.emit lg] ∨
         ∃ pr, (∃ p t s f pd, pr = Ev.progress p t s f pd) ∧
           blocks[k]? = some ([Act.emit lg, Act.emit pr]
             ++ (if k + 1 < (["a@b.com", "c@d.org"] : List String).length
                 then [Act.sleep 1] else [])))) ∧
      (∀ n, Act.sleep n ∉ successHeader (["a@b.com", "c@d.org"] : List String).length) ∧
      (∀ n s f q, Act.sleep n ∉ successFooter s f q) :=
  pacing_spec env0 "s" "n" "p" "su" "b" ["a@b.com", "c@d.org"] [37] "cv" rfl rfl rfl
    (by simp)

/-- C2 counterexample: a two-recipient run whose second recipient is
invalid.  Its iteration executes `continue`, so the run's last progress
record is the first recipient's, with `sent + failed = 1 ≠ 2 = total`. -/
theorem last_progress_counterexample :
    (progressEvents
        (send_emails_batch env0 "s" "n" "p" "su" "b" ["a@b.com", "bad"] [37] "cv")).getLast?
      = some (Ev.progress 50 2 1 0 1) ∧
    (1 + 0 : Nat) ≠ (["a@b.com", "bad"] : List String).length := by
  refine ⟨by decide, by decide⟩

/-- C1 counterexample: (a) a run whose only recipient is invalid emits no
progress record at all (the invalid branch executes `continue`), refuting
"exactly one Progress event per recipient, valid or invalid"; (b) in a
50-recipient run of valid addresses the 29th progress record carries
percent 57 — the binary64 value of `int((29/50)*100)` — while
`floor(29/50*100) = 58`, refuting the percent formula. -/
theorem progress_claim_counterexample :
    progressEvents (send_emails_batch env0 "s" "n" "p" "su" "b" ["bad"] [37] "cv") = [] ∧
    (["bad"] : List String).length = 1 ∧
    (progressEvents (send_emails_batch env0 "s" "n" "p" "su" "b" rs50 [37] "cv"))[28]? =
      some (Ev.progress 57 50 29 0 21) ∧
    29 * 100 / 50 = 58 ∧
    (57 : Nat) ≠ 58 := by
  refine ⟨by decide, by decide, by decide, by decide, by decide⟩

/-- C1 (amended): in every run that reaches the loop, the event stream
decomposes into one block per recipient in input order; a recipient that
fails validation contributes only its invalid-address log (no progress
record, no pacing); a recipient that passes validation contributes its
outcome log followed by exactly one progress record — carrying percent
`int((i/total)*100)` evaluated in binary64 floating point (which can fall
one below `floor(i*100/total)`), the run total, and the post-recipient
sent/failed/pending counters — followed only by the pacing sleep; no
progress record occurs outside the blocks. -/
theorem progress_per_recipient (env : Env) (se sn pw sb bd : String) (rs : List String)
    (cd : List Nat) (cf : String)
    (h1 : env.connectErr = none) (h2 : env.starttlsErr = none)
    (h3 : env.loginRes = LoginRes.ok) :
    ∃ blocks : List (List Act),
      send_emails_batch env se sn pw sb bd rs cd cf =
        successHeader rs.length ++ blocks.flatten ++
          successFooter (countersAfter env.buildErr env.sendErr rs.length rs rs.length).1
            (countersAfter env.buildErr env.sendErr rs.length rs rs.length).2 env.quitErr ∧
      blocks.length = rs.length ∧
      (∀ k, k < rs.length →
        (validate_email ((rs.getD k "").toList) = false →
          blocks[k]? = some [Act.emit (invalidLog (rs.getD k ""))]) ∧
        (validate_email ((rs.getD k "").toList) = true →
          blocks[k]? = some
            ([Act.emit (outcomeLogEv (rs.getD k "")
                (stepOutcome env.buildErr env.sendErr (1 + k) (rs.getD k ""))),
              Act.emit (Ev.progress (pyPercent (1 + k) rs.length) rs.length
                (countersAfter env.buildErr env.sendErr rs.length rs (k + 1)).1
                (countersAfter env.buildErr env.sendErr rs.length rs (k + 1)).2
                ((rs.length : Int)
                  - ((countersAfter env.buildErr env.sendErr rs.length rs (k + 1)).1 : Int)
                  - ((countersAfter env.buildErr env.sendErr rs.length rs (k + 1)).2 : Int)))]
              ++ (if k + 1 < rs.length then [Act.sleep 1] else [])))) ∧
      progressEvents (successHeader rs.length) = [] ∧
      (∀ s f q, progressEvents (successFooter s f q) = []) := by
  obtain ⟨blocks, hjoin, hlen, hidx⟩ :=
    loopGo_blocks env.buildErr env.sendErr rs.length rs 1 (0, 0)
  refine ⟨blocks, ?_, hlen, ?_, ?_, ?_⟩
  · rw [send_success_decomp env se sn pw sb bd rs cd cf h1 h2 h3, hjoin]
    unfold countersAfter
    rw [List.take_length]
  · intro k hk
    have hb := hidx k hk
    constructor
    · intro hv
      have ho : stepOutcome env.buildErr env.sendErr (1 + k) (rs.getD k "")
          = Outcome.invalid := (stepOutcome_invalid_iff _ _ _ _).2 hv
      rw [hb]
      simp only [blockActs]
      rw [if_pos ho, ho]
      rfl
    · intro hv
      have ho : stepOutcome env.buildErr env.sendErr (1 + k) (rs.getD k "")
          ≠ Outcome.invalid := by
        rw [ne_eq, stepOutcome_invalid_iff]
        simpa using hv
      rw [hb, countersAfter_succ env.buildErr env.sendErr rs.length rs k hk]
      have harith : k + 1 = 1 + k := Nat.add_comm k 1
      rw [harith]
      simp only [blockActs]
      rw [if_neg ho]
      rfl
  · simp [progressEvents, successHeader, startLog, connectingLog, authingLog, authOkLog,
      sendingLog]
  · intro s f q
    simp [progressEvents, successFooter, completionLog]

/-- C1 witness: the per-recipient block structure of a concrete
one-recipient run. -/
theorem progress_per_recipient_witness :
    ∃ blocks : List (List Act),
      send_emails_batch env0 "s" "n" "p" "su" "b" ["a@b.com"] [37] "cv" =
        successHeader (["a@b.com"] : List String).length ++ blocks.flatten ++
          successFooter (countersAfter env0.buildErr env0.sendErr
              (["a@b.com"] : List String).length ["a@b.com"]
              (["a@b.com"] : List String).length).1
            (countersAfter env0.buildErr env0.sendErr
              (["a@b.com"] : List String).length ["a@b.com"]
              (["a@b.com"] : List String).length).2 env0.quitErr ∧
      blocks.length = (["a@b.com"] : List String).length ∧
      (∀ k, k < (["a@b.com"] : List String).length →
        (validate_email (((["a@b.com"] : List String).getD k "").toList) = false →
          blocks[k]? = some [Act.emit (invalidLog ((["a@b.com"] : List String).getD k ""))]) ∧
        (validate_email (((["a@b.com"] : List String).getD k "").toList) = true →
          blocks[k]? = some
            ([Act.emit (outcomeLogEv ((["a@b.com"] : List String).getD k "")
                (stepOutcome env0.buildErr env0.sendErr (1 + k)
                  ((["a@b.com"] : List String).getD k ""))),
              Act.emit (Ev.progress (pyPercent (1 + k) (["a@b.com"] : List String).length)
                (["a@b.com"] : List String).length
                (countersAfter env0.buildErr env0.sendErr
                  (["a@b.com"] : List String).length ["a@b.com"] (k + 1)).1
                (countersAfter env0.buildErr env0.sendErr
                  (["a@b.com"] : List String).length ["a@b.com"] (k + 1)).2
                (((["a@b.com"] : List String).length : Int)
                  - ((countersAfter env0.buildErr env0.sendErr
                      (["a@b.com"] : List String).length ["a@b.com"] (k + 1)).1 : Int)
                  - ((countersAfter env0.buildErr env0.sendErr
                      (["a@b.com"] : List String).length ["a@b.com"] (k + 1)).2 : Int)))]
              ++ (if k + 1 < (["a@b.com"] : List String).length
                  then [Act.sleep 1] else [])))) ∧
      progressEvents (successHeader (["a@b.com"] : List String).length) = [] ∧
      (∀ s f q, progressEvents (successFooter s f q) = []) :=
  progress_per_recipient env0 "s" "n" "p" "su" "b" ["a@b.com"] [37] "cv" rfl rfl rfl

end JobMailer
